import Mathlib

/-!
Verification of the file-discovery engine of `all-my-circuits`
(`src/walk.rs`), its CLI gate (`src/main.rs`) and the byte sanitizer
(`src/clean.rs`), via a shallow embedding into Lean 4.

Paths are modeled as a flag recording absoluteness together with the list
of normal path components (canonicalized paths contain no `.` or `..`
components).  The directory traversal performed by the external `ignore`
crate is modeled as a snapshot: the list of entries the walker yields,
each carrying its path relative to the scan root, its file-type
classification, whether reading the entry succeeded (`entry.ok()`), and
whether the layered ignore rules suppress it.  The filtering pipeline in
`FileWalker::walk` is translated filter by filter from the source.
-/

/-- Model of a filesystem path: whether it is absolute, plus its normal
components in order.  Mirrors `std::path::PathBuf` restricted to paths
whose components are all normal (true of canonicalized roots and of the
entries a directory walk yields beneath them). -/
structure RPath where
  isAbsolute : Bool
  components : List String
deriving DecidableEq, Repr

/-- Model of `Path::file_name`: the final normal component, if any. -/
def RPath.fileName (p : RPath) : Option String :=
  p.components.getLast?

/-- Split a file name (as a character list) around its last dot, returning
the parts before and after that dot; `none` when the name has no dot.
Helper for modeling `Path::extension`. -/
def splitAtLastDot : List Char → Option (List Char × List Char)
  | [] => none
  | c :: rest =>
    match splitAtLastDot rest with
    | some (bef, aft) => some (c :: bef, aft)
    | none => if c == '.' then some ([], rest) else none

/-- Model of the extension of a file name, following Rust semantics:
the portion after the last dot, except that a name with no dot, or a name
whose only dot is a leading one (a hidden file like `.gitignore`), has no
extension.  `foo.rs ↦ some rs`, `.amc.toml ↦ some toml`,
`.gitignore ↦ none`, `e ↦ none`. -/
def rustExtension (name : String) : Option String :=
  match splitAtLastDot name.data with
  | none => none
  | some (bef, aft) => if bef.isEmpty then none else some (String.mk aft)

/-- Model of `Path::extension`: the extension of the file name. -/
def RPath.extension (p : RPath) : Option String :=
  match p.fileName with
  | some name => rustExtension name
  | none => none

/-- Model of `Path::join`: an absolute right operand replaces the left
one, otherwise components are appended. -/
def RPath.join (p q : RPath) : RPath :=
  if q.isAbsolute then q else ⟨p.isAbsolute, p.components ++ q.components⟩

/-- Model of `Path::strip_prefix(base)` as used in `FileWalker::walk`:
succeeds when `base` is a component-wise prefix (with equal absoluteness),
yielding the relative remainder. -/
def RPath.stripBase (p base : RPath) : Option RPath :=
  if base.isAbsolute == p.isAbsolute && base.components.isPrefixOf p.components then
    some ⟨false, p.components.drop base.components.length⟩
  else
    none

/-- Model of `path.ancestors().filter_map(|a| a.file_name())`: the file
name of every ancestor of the path, from the path itself up to the root.
For a path of normal components these are exactly the components in
reverse order (the root ancestor has no file name and is filtered out). -/
def ancestorFileNames (p : RPath) : List String :=
  p.components.reverse

/-- `const EXCLUDED_FILES: &[&str] = &[".amc.toml"];` from `src/walk.rs`. -/
def EXCLUDED_FILES : List String := [".amc.toml"]

/-- The `FileWalker` struct from `src/walk.rs`. -/
structure FileWalker where
  extensions : List String
  excluded_folders : List String
deriving DecidableEq, Repr

/-- Model of `ext.trim_start_matches('.')`: remove every leading dot. -/
def trimStartDots (s : String) : String :=
  String.mk (s.data.dropWhile fun c => c == '.')

/-- `FileWalker::new`: stores the extension list with leading dots
stripped from each entry, and the excluded folder names as given. -/
def FileWalker.new (extensions excluded_folders : List String) : FileWalker :=
  { extensions := extensions.map trimStartDots
    excluded_folders := excluded_folders }

/-- `FileWalker::is_valid_extension`: reject a file whose name is one of
the reserved `EXCLUDED_FILES`; otherwise accept exactly when the path has
an extension that equals (case-sensitively) a configured extension. -/
def FileWalker.is_valid_extension (w : FileWalker) (path : RPath) : Bool :=
  if (match path.fileName with
      | some name => EXCLUDED_FILES.contains name
      | none => false) then
    false
  else
    match path.extension with
    | some ext => w.extensions.any fun allowed => allowed == ext
    | none => false

/-- `FileWalker::is_excluded_directory`: with an empty excluded-folder
list answer `false`; otherwise answer whether the file name of any
ancestor of the path occurs in the excluded-folder list. -/
def FileWalker.is_excluded_directory (w : FileWalker) (path : RPath) : Bool :=
  if w.excluded_folders.isEmpty then
    false
  else
    (ancestorFileNames path).any fun folderName => w.excluded_folders.contains folderName

/-- One entry yielded by the `ignore` crate walker over a filesystem
snapshot: its path relative to the scan root, whether it is a regular
file, whether the walker could read it (`entry.ok()`), and whether the
layered ignore rules suppress it (suppressed entries are never yielded). -/
structure Node where
  rel : List String
  isFile : Bool
  ok : Bool
  ignored : Bool
deriving DecidableEq, Repr

/-- A `FileEntry` record from `src/walk.rs`. -/
structure FileEntry where
  absolute_path : RPath
  relative_path : RPath
deriving DecidableEq, Repr

/-- The filtering and record-construction pipeline inside
`FileWalker::walk`, applied to the snapshot the walker enumerates under
the resolved root `base`: suppressed entries are not yielded, unreadable
entries are dropped by `filter_map(|entry| entry.ok())`, then the
file-type, folder-exclusion and extension filters run in order, and each
survivor becomes a `FileEntry` whose relative path strips the `base`
prefix from the absolute path, falling back to the absolute path when
stripping fails. -/
def FileWalker.walkFiltered (w : FileWalker) (base : RPath) (snap : List Node) :
    List FileEntry :=
  (((((snap.filter fun n => !n.ignored).filter
        fun n => n.ok).filter
        fun n => n.isFile).filter
        fun n => !(w.is_excluded_directory (base.join ⟨false, n.rel⟩))).filter
        fun n => w.is_valid_extension (base.join ⟨false, n.rel⟩)).map
    fun n =>
      let abs := base.join ⟨false, n.rel⟩
      { absolute_path := abs
        relative_path := (abs.stripBase base).getD abs }

/-- Root-resolution failures in `FileWalker::walk`: `std::env::current_dir`
failing for the `.` root, or `Path::canonicalize` failing otherwise. -/
inductive PathResolutionError where
  | currentDirUnavailable
  | canonicalizeFailed
deriving DecidableEq, Repr

/-- The environment a walk runs in: the outcome of resolving the current
directory and the outcome of canonicalizing the requested root. -/
structure WalkEnv where
  currentDir : Option RPath
  canonicalized : Option RPath
deriving DecidableEq, Repr

/-- `FileWalker::walk`: resolve the root (current directory for `"."`,
canonicalization otherwise), failing on resolution errors only, then run
the filtering pipeline over the snapshot the walker enumerates. -/
def FileWalker.walk (w : FileWalker) (dir : String) (env : WalkEnv)
    (snap : List Node) : Except PathResolutionError (List FileEntry) :=
  if dir == "." then
    match env.currentDir with
    | none => Except.error PathResolutionError.currentDirUnavailable
    | some base => Except.ok (w.walkFiltered base snap)
  else
    match env.canonicalized with
    | none => Except.error PathResolutionError.canonicalizeFailed
    | some base => Except.ok (w.walkFiltered base snap)

/-- The flags `FileWalker::walk` sets on the `ignore` crate builder. -/
structure WalkBuilderSettings where
  hidden : Bool
  git_ignore : Bool
  git_global : Bool
  git_exclude : Bool
  require_git : Bool
  ignore : Bool
deriving DecidableEq, Repr

/-- The builder configuration from `src/walk.rs`:
`.hidden(false).git_ignore(true).git_global(true).git_exclude(true).require_git(false).ignore(true)`. -/
def walkBuilderSettings : WalkBuilderSettings :=
  { hidden := false
    git_ignore := true
    git_global := true
    git_exclude := true
    require_git := false
    ignore := true }

/-- The `Config` struct from `src/config.rs`. -/
structure Config where
  delimiter : String
  extensions : List String
  llm_prompt : String
  excluded_folders : List String
deriving DecidableEq, Repr

/-- The environment `main` runs in: whether `Repository::discover` on the
scan directory succeeds, the outcome of `Config::load`, and the walk
environment and snapshot. -/
structure CliEnv where
  dirIsGitRepo : Bool
  loadedConfig : Option Config
  walkEnv : WalkEnv
  snapshot : List Node

/-- The error cases of `main` up to and including the walk. -/
inductive MainError where
  | notGitRepository
  | configLoadFailed
  | walkFailed (e : PathResolutionError)
deriving DecidableEq, Repr

/-- Model of `fn is_git_repository`: whether `Repository::discover` on
the directory succeeds. -/
def is_git_repository (env : CliEnv) : Bool :=
  env.dirIsGitRepo

/-- The prefix of `main` from `src/main.rs` up to the walk: reject a
non-git scan directory first, then load the configuration, construct the
`FileWalker` from it and run the walk. -/
def mainRun (dir : String) (env : CliEnv) : Except MainError (List FileEntry) :=
  if !(is_git_repository env) then
    Except.error MainError.notGitRepository
  else
    match env.loadedConfig with
    | none => Except.error MainError.configLoadFailed
    | some config =>
      match (FileWalker.new config.extensions config.excluded_folders).walk
          dir env.walkEnv env.snapshot with
      | Except.error e => Except.error (MainError.walkFailed e)
      | Except.ok files => Except.ok files

/-- The `CleanStats` struct from `src/clean.rs`. -/
structure CleanStats where
  null_bytes : Nat
  control_chars : Nat
  total_bytes : Nat
  lines_affected : Nat
deriving DecidableEq, Repr

/-- The control-byte ranges removed by `clean_content`:
`1..=8 | 11..=12 | 14..=31` (tab 9, newline 10 and carriage return 13 are
outside these ranges). -/
def isStrippedControl (b : Nat) : Bool :=
  decide ((1 ≤ b ∧ b ≤ 8) ∨ (11 ≤ b ∧ b ≤ 12) ∨ (14 ≤ b ∧ b ≤ 31))

/-- The body of the per-byte `match` in `clean_content`, threading the
accumulated output bytes, the statistics and the current-line-affected
flag.  Matches the source arm by arm: null bytes and stripped control
bytes are dropped (counted only when statistics are collected), a newline
is kept and may bump the affected-line count, every other byte is kept. -/
def cleanStep (collect_stats : Bool) (acc : List Nat × CleanStats × Bool)
    (byte : Nat) : List Nat × CleanStats × Bool :=
  let (cleaned, stats, cur) := acc
  if byte == 0 then
    (cleaned,
     (if collect_stats then { stats with null_bytes := stats.null_bytes + 1 } else stats),
     (if collect_stats then true else cur))
  else if isStrippedControl byte then
    (cleaned,
     (if collect_stats then { stats with control_chars := stats.control_chars + 1 } else stats),
     (if collect_stats then true else cur))
  else if byte == 10 then
    (cleaned ++ [byte],
     (if collect_stats && cur then { stats with lines_affected := stats.lines_affected + 1 } else stats),
     (if collect_stats && cur then false else cur))
  else
    (cleaned ++ [byte], stats, cur)

/-- `fn clean_content` from `src/clean.rs`, on the byte level: fold the
per-byte step over the buffer, then account for a final line that does
not end in a newline.  The returned `String` in the source is the UTF-8
decoding of the first component; since every removed byte is a standalone
ASCII control byte, on valid UTF-8 input the lossy decoding is exact and
the first component is the byte sequence of the returned string. -/
def clean_content (buffer : List Nat) (collect_stats : Bool) :
    List Nat × CleanStats :=
  let start : List Nat × CleanStats × Bool :=
    ([],
     { null_bytes := 0, control_chars := 0
       total_bytes := buffer.length, lines_affected := 0 },
     false)
  let res := buffer.foldl (cleanStep collect_stats) start
  let stats :=
    if collect_stats && res.2.2 then
      { res.2.1 with lines_affected := res.2.1.lines_affected + 1 }
    else res.2.1
  (res.1, stats)

/-! ## Helper lemmas -/

/-- Stripping the base back off a path joined under it recovers the
relative part. -/
theorem stripBase_join (base : RPath) (r : List String) :
    RPath.stripBase (base.join ⟨false, r⟩) base = some ⟨false, r⟩ := by
  simp [RPath.join, RPath.stripBase, List.isPrefixOf_iff_prefix,
    List.prefix_append, List.drop_left]

/-- When the root resolves to `base`, the walk succeeds with precisely
the filtering pipeline applied to the snapshot. -/
theorem walk_resolved (w : FileWalker) (dir : String) (env : WalkEnv)
    (snap : List Node) (base : RPath)
    (hres : (if dir == "." then env.currentDir else env.canonicalized) = some base) :
    w.walk dir env snap = Except.ok (w.walkFiltered base snap) := by
  rw [FileWalker.walk]
  cases hd : dir == "." <;> simp only [hd, if_true, if_false, Bool.false_eq_true,
    if_neg, reduceIte] at hres ⊢ <;> rw [hres]

/-- Membership characterization of the filtering pipeline. -/
theorem mem_walkFiltered (w : FileWalker) (base : RPath) (snap : List Node)
    (e : FileEntry) :
    e ∈ w.walkFiltered base snap ↔
      ∃ n, n ∈ snap ∧ n.ignored = false ∧ n.ok = true ∧ n.isFile = true ∧
        w.is_excluded_directory (base.join ⟨false, n.rel⟩) = false ∧
        w.is_valid_extension (base.join ⟨false, n.rel⟩) = true ∧
        e = { absolute_path := base.join ⟨false, n.rel⟩
              relative_path :=
                ((base.join ⟨false, n.rel⟩).stripBase base).getD
                  (base.join ⟨false, n.rel⟩) } := by
  constructor
  · intro he
    simp only [FileWalker.walkFiltered, List.mem_map] at he
    obtain ⟨n, hn, he⟩ := he
    simp only [List.mem_filter] at hn
    obtain ⟨⟨⟨⟨⟨hsnap, h₁⟩, h₂⟩, h₃⟩, h₄⟩, h₅⟩ := hn
    exact ⟨n, hsnap, by simpa using h₁, h₂, h₃, by simpa using h₄, h₅, he.symm⟩
  · rintro ⟨n, hsnap, hig, hok, hfile, hexcl, hval, he⟩
    simp only [FileWalker.walkFiltered, List.mem_map]
    refine ⟨n, ?_, he.symm⟩
    simp only [List.mem_filter]
    exact ⟨⟨⟨⟨⟨hsnap, by simp [hig]⟩, hok⟩, hfile⟩, by simp [hexcl]⟩, hval⟩

/-! ## C1: folder-exclusion filter -/

/-- C1 counterexample: with excluded-folder set `{a.rs}`, the file
`/tmp/scan/sub/a.rs` is rejected by the folder-exclusion filter although
no component of its ancestry from the scan root down to its immediate
parent (`tmp`, `scan`, `sub`) occurs in the excluded set — the code also
compares the file's own name (and every component of the absolute path)
against the excluded names, so the claimed if-and-only-if fails. -/
theorem is_excluded_directory_claim_counterexample :
    (FileWalker.new ["rs"] ["a.rs"]).is_excluded_directory
        ⟨true, ["tmp", "scan", "sub", "a.rs"]⟩ = true ∧
      ¬ ∃ c ∈ (["tmp", "scan", "sub"] : List String), c ∈ (["a.rs"] : List String) := by
  decide

/-- C1 (amended): a visited file is rejected by the folder-exclusion
filter if and only if some component of its full absolute path — the
resolved scan root's own components and the file's final name included,
not only the ancestry strictly from the root down to the parent — is
exactly equal to an excluded folder name; matching is whole-component
string equality at any depth, and with an empty excluded set the filter
always passes. -/
theorem is_excluded_directory_iff_component_mem (w : FileWalker) (p : RPath) :
    w.is_excluded_directory p = true ↔
      ∃ c ∈ p.components, c ∈ w.excluded_folders := by
  rw [FileWalker.is_excluded_directory]
  by_cases hfe : w.excluded_folders.isEmpty
  · rw [if_pos hfe]
    have hnil : w.excluded_folders = [] := List.isEmpty_iff.mp hfe
    simp [hnil]
  · rw [if_neg hfe]
    simp [ancestorFileNames, List.any_eq_true, List.mem_reverse,
      List.contains_eq_any_beq]

/-! ## C2: relative paths -/

/-- C2: every record returned by a successful walk has a non-absolute
`relative_path`, and joining the resolved scan root with it yields
exactly the record's `absolute_path`. -/
theorem walk_relative_path_correct (w : FileWalker) (dir : String)
    (env : WalkEnv) (snap : List Node) (base : RPath)
    (files : List FileEntry) (e : FileEntry)
    (hres : (if dir == "." then env.currentDir else env.canonicalized) = some base)
    (hok : w.walk dir env snap = Except.ok files) (he : e ∈ files) :
    e.relative_path.isAbsolute = false ∧
      base.join e.relative_path = e.absolute_path := by
  rw [walk_resolved w dir env snap base hres] at hok
  obtain rfl : w.walkFiltered base snap = files := by
    injection hok
  obtain ⟨n, -, -, -, -, -, -, rfl⟩ := (mem_walkFiltered w base snap e).mp he
  rw [stripBase_join]
  refine ⟨rfl, ?_⟩
  simp [RPath.join]

/-- Witness for C2 at a one-file snapshot. -/
theorem walk_relative_path_correct_witness :
    (FileEntry.mk ⟨true, ["tmp", "scan", "a.rs"]⟩ ⟨false, ["a.rs"]⟩).relative_path.isAbsolute
        = false ∧
      RPath.join ⟨true, ["tmp", "scan"]⟩
          (FileEntry.mk ⟨true, ["tmp", "scan", "a.rs"]⟩ ⟨false, ["a.rs"]⟩).relative_path =
        (FileEntry.mk ⟨true, ["tmp", "scan", "a.rs"]⟩ ⟨false, ["a.rs"]⟩).absolute_path :=
  walk_relative_path_correct (FileWalker.new ["rs"] []) "/tmp/scan"
    ⟨none, some ⟨true, ["tmp", "scan"]⟩⟩ [⟨["a.rs"], true, true, false⟩]
    ⟨true, ["tmp", "scan"]⟩ _ _ (by decide) rfl (by decide)

/-! ## C3: error propagation -/

/-- Dropping the unreadable entries first does not change the output of
the first two pipeline stages. -/
theorem filter_ok_comm (snap : List Node) :
    ((snap.filter fun n => !n.ignored).filter fun n => n.ok) =
      (((snap.filter fun n => n.ok).filter fun n => !n.ignored).filter
        fun n => n.ok) := by
  induction snap with
  | nil => rfl
  | cons n ns ih =>
    cases hok : n.ok <;> cases hig : n.ignored <;>
      simp [List.filter_cons, hok, hig, ih]

/-- The pipeline ignores entries the walker could not read. -/
theorem walkFiltered_skips_unreadable (w : FileWalker) (base : RPath)
    (snap : List Node) :
    w.walkFiltered base snap =
      w.walkFiltered base (snap.filter fun n => n.ok) := by
  simp only [FileWalker.walkFiltered]
  rw [filter_ok_comm]

/-- C3: the walk fails exactly when the root cannot be resolved (current
directory unobtainable for `"."`, canonicalization failure otherwise);
any unreadable directory entry is merely skipped, the remaining entries
still being returned. -/
theorem walk_error_iff_root_unresolved (w : FileWalker) (dir : String)
    (env : WalkEnv) (snap : List Node) :
    ((∃ err, w.walk dir env snap = Except.error err) ↔
        (if dir == "." then env.currentDir else env.canonicalized) = none) ∧
      w.walk dir env snap = w.walk dir env (snap.filter fun n => n.ok) := by
  obtain ⟨cd, cz⟩ := env
  constructor
  · cases hd : dir == "." with
    | false =>
      simp only [FileWalker.walk, hd, Bool.false_eq_true, if_false]
      cases cz <;> simp
    | true =>
      simp only [FileWalker.walk, hd, if_true]
      cases cd <;> simp
  · cases hd : dir == "." with
    | false =>
      simp only [FileWalker.walk, hd, Bool.false_eq_true, if_false]
      cases cz with
      | none => rfl
      | some base => exact congrArg Except.ok (walkFiltered_skips_unreadable w base snap)
    | true =>
      simp only [FileWalker.walk, hd, if_true]
      cases cd with
      | none => rfl
      | some base => exact congrArg Except.ok (walkFiltered_skips_unreadable w base snap)

/-! ## C4: the reserved configuration artifact is never returned -/

/-- C4: no record of a successful walk is named `.amc.toml`, whatever the
configured extension set. -/
theorem walk_excludes_config_artifact (w : FileWalker) (dir : String)
    (env : WalkEnv) (snap : List Node) (base : RPath)
    (files : List FileEntry) (e : FileEntry)
    (hres : (if dir == "." then env.currentDir else env.canonicalized) = some base)
    (hok : w.walk dir env snap = Except.ok files) (he : e ∈ files) :
    e.absolute_path.fileName ≠ some ".amc.toml" := by
  rw [walk_resolved w dir env snap base hres] at hok
  obtain rfl : w.walkFiltered base snap = files := by injection hok
  obtain ⟨n, -, -, -, -, -, hval, rfl⟩ := (mem_walkFiltered w base snap e).mp he
  intro hname
  have hname2 : (base.join ⟨false, n.rel⟩).fileName = some ".amc.toml" := hname
  rw [FileWalker.is_valid_extension, hname2] at hval
  simp [EXCLUDED_FILES] at hval

/-- Witness for C4: a snapshot holding `.amc.toml` and `a.rs`, walked
with extension set `{rs, toml}`, and the record the walk returns. -/
theorem walk_excludes_config_artifact_witness :
    (FileEntry.mk ⟨true, ["tmp", "scan", "a.rs"]⟩
        ⟨false, ["a.rs"]⟩).absolute_path.fileName ≠ some ".amc.toml" :=
  walk_excludes_config_artifact (FileWalker.new ["rs", "toml"] []) "/tmp/scan"
    ⟨none, some ⟨true, ["tmp", "scan"]⟩⟩
    [⟨[".amc.toml"], true, true, false⟩, ⟨["a.rs"], true, true, false⟩]
    ⟨true, ["tmp", "scan"]⟩ _
    (FileEntry.mk ⟨true, ["tmp", "scan", "a.rs"]⟩ ⟨false, ["a.rs"]⟩)
    (by decide) rfl (by decide)

/-! ## C5: extension filter -/

/-- C5: every record of a successful walk has a file extension, that
extension belongs (case-sensitively, without the separator) to the
configured extension set, and an empty configured extension set returns
no file at all. -/
theorem walk_extension_in_configured_set (w : FileWalker) (dir : String)
    (env : WalkEnv) (snap : List Node) (base : RPath) (files : List FileEntry)
    (hres : (if dir == "." then env.currentDir else env.canonicalized) = some base)
    (hok : w.walk dir env snap = Except.ok files) :
    (∀ e ∈ files, ∃ ext,
        e.absolute_path.extension = some ext ∧ ext ∈ w.extensions) ∧
      (w.extensions = [] → files = []) := by
  rw [walk_resolved w dir env snap base hres] at hok
  obtain rfl : w.walkFiltered base snap = files := by injection hok
  constructor
  · intro e he
    obtain ⟨n, -, -, -, -, -, hval, rfl⟩ := (mem_walkFiltered w base snap e).mp he
    have hval2 : (match (base.join ⟨false, n.rel⟩).extension with
        | some ext => w.extensions.any fun allowed => allowed == ext
        | none => false) = true := by
      by_cases hexc : (match (base.join ⟨false, n.rel⟩).fileName with
          | some name => EXCLUDED_FILES.contains name
          | none => false) = true
      · rw [FileWalker.is_valid_extension, if_pos hexc] at hval
        exact absurd hval (by simp)
      · rwa [FileWalker.is_valid_extension, if_neg hexc] at hval
    cases hext : (base.join ⟨false, n.rel⟩).extension with
    | none => rw [hext] at hval2; exact absurd hval2 (by simp)
    | some ext =>
      rw [hext] at hval2
      simp only [List.any_eq_true] at hval2
      obtain ⟨allowed, hall, hbeq⟩ := hval2
      exact ⟨ext, rfl, eq_of_beq hbeq ▸ hall⟩
  · intro hempty
    simp only [FileWalker.walkFiltered]
    have hfalse : ∀ p : RPath, w.is_valid_extension p = false := by
      intro p
      rw [FileWalker.is_valid_extension]
      split
      · rfl
      · split <;> simp [hempty]
    simp [hfalse]

/-- Witness for C5 at a one-file snapshot and extension set `{rs}`. -/
theorem walk_extension_in_configured_set_witness :
    ∃ ext,
      (FileEntry.mk ⟨true, ["tmp", "scan", "a.rs"]⟩
          ⟨false, ["a.rs"]⟩).absolute_path.extension = some ext ∧
        ext ∈ (FileWalker.new ["rs"] []).extensions :=
  (walk_extension_in_configured_set (FileWalker.new ["rs"] []) "/tmp/scan"
      ⟨none, some ⟨true, ["tmp", "scan"]⟩⟩ [⟨["a.rs"], true, true, false⟩]
      ⟨true, ["tmp", "scan"]⟩ _ (by decide) rfl).1
    (FileEntry.mk ⟨true, ["tmp", "scan", "a.rs"]⟩ ⟨false, ["a.rs"]⟩) (by decide)

/-! ## C6: concrete five-file scenario -/

/-- C6: on a root holding `a.rs`, `b.rs`, `c.txt`, `sub/d.rs` and `e`
(no extension), with extension set `{rs}`, no excluded folders and no
ignored entries, the walk returns exactly the three records `a.rs`,
`b.rs` and `sub/d.rs`, each with extension `rs`. -/
theorem walk_basic_scenario :
    (FileWalker.new ["rs"] []).walk "/tmp/scan"
        ⟨none, some ⟨true, ["tmp", "scan"]⟩⟩
        [⟨[], false, true, false⟩,
         ⟨["a.rs"], true, true, false⟩,
         ⟨["b.rs"], true, true, false⟩,
         ⟨["c.txt"], true, true, false⟩,
         ⟨["sub"], false, true, false⟩,
         ⟨["sub", "d.rs"], true, true, false⟩,
         ⟨["e"], true, true, false⟩] =
      Except.ok
        [⟨⟨true, ["tmp", "scan", "a.rs"]⟩, ⟨false, ["a.rs"]⟩⟩,
         ⟨⟨true, ["tmp", "scan", "b.rs"]⟩, ⟨false, ["b.rs"]⟩⟩,
         ⟨⟨true, ["tmp", "scan", "sub", "d.rs"]⟩, ⟨false, ["sub", "d.rs"]⟩⟩] ∧
      (([⟨⟨true, ["tmp", "scan", "a.rs"]⟩, ⟨false, ["a.rs"]⟩⟩,
         ⟨⟨true, ["tmp", "scan", "b.rs"]⟩, ⟨false, ["b.rs"]⟩⟩,
         ⟨⟨true, ["tmp", "scan", "sub", "d.rs"]⟩, ⟨false, ["sub", "d.rs"]⟩⟩] :
          List FileEntry).all
        fun e => e.absolute_path.extension == some "rs") = true :=
  ⟨rfl, rfl⟩

/-! ## C7: extension normalization -/

/-- Stripping leading dots absorbs one more prepended dot. -/
theorem trimStartDots_dot (e : String) :
    trimStartDots ("." ++ e) = trimStartDots e := by
  simp [trimStartDots, String.data_append, List.dropWhile]

/-- C7: a configuration listing the extension `.e` (with a leading
separator) and one listing `e` produce the same walker, hence identical
walk results on every root and snapshot. -/
theorem walk_extension_dot_invariant (e : String) (pre post excl : List String)
    (dir : String) (env : WalkEnv) (snap : List Node) :
    (FileWalker.new (pre ++ ("." ++ e) :: post) excl).walk dir env snap =
      (FileWalker.new (pre ++ e :: post) excl).walk dir env snap := by
  have h : FileWalker.new (pre ++ ("." ++ e) :: post) excl =
      FileWalker.new (pre ++ e :: post) excl := by
    simp [FileWalker.new, trimStartDots_dot]
  rw [h]

/-! ## C8: determinism of the result set -/

/-- C8: on the same (or merely reorderedly enumerated) snapshot of an
unchanged filesystem tree, two successful walks return the same records
up to order: the result set is a function of the snapshot and the
configuration alone. -/
theorem walk_deterministic (w : FileWalker) (dir : String) (env : WalkEnv)
    (snap₁ snap₂ : List Node) (files₁ files₂ : List FileEntry)
    (hperm : snap₁.Perm snap₂)
    (h₁ : w.walk dir env snap₁ = Except.ok files₁)
    (h₂ : w.walk dir env snap₂ = Except.ok files₂) :
    files₁.Perm files₂ := by
  obtain ⟨cd, cz⟩ := env
  cases hd : dir == "." with
  | true =>
    simp only [FileWalker.walk, hd, if_true] at h₁ h₂
    cases cd with
    | none => exact absurd h₁ (by simp)
    | some base =>
      obtain rfl : w.walkFiltered base snap₁ = files₁ := by injection h₁
      obtain rfl : w.walkFiltered base snap₂ = files₂ := by injection h₂
      simp only [FileWalker.walkFiltered]
      exact (((((hperm.filter _).filter _).filter _).filter _).filter _).map _
  | false =>
    simp only [FileWalker.walk, hd, Bool.false_eq_true, if_false] at h₁ h₂
    cases cz with
    | none => exact absurd h₁ (by simp)
    | some base =>
      obtain rfl : w.walkFiltered base snap₁ = files₁ := by injection h₁
      obtain rfl : w.walkFiltered base snap₂ = files₂ := by injection h₂
      simp only [FileWalker.walkFiltered]
      exact (((((hperm.filter _).filter _).filter _).filter _).filter _).map _

/-- Witness for C8: a two-file snapshot enumerated in both orders. -/
theorem walk_deterministic_witness :
    ([⟨⟨true, ["r", "a.rs"]⟩, ⟨false, ["a.rs"]⟩⟩,
      ⟨⟨true, ["r", "b.rs"]⟩, ⟨false, ["b.rs"]⟩⟩] : List FileEntry).Perm
      [⟨⟨true, ["r", "b.rs"]⟩, ⟨false, ["b.rs"]⟩⟩,
       ⟨⟨true, ["r", "a.rs"]⟩, ⟨false, ["a.rs"]⟩⟩] :=
  walk_deterministic (FileWalker.new ["rs"] []) "/r" ⟨none, some ⟨true, ["r"]⟩⟩
    [⟨["a.rs"], true, true, false⟩, ⟨["b.rs"], true, true, false⟩]
    [⟨["b.rs"], true, true, false⟩, ⟨["a.rs"], true, true, false⟩] _ _
    (List.Perm.swap _ _ _) rfl rfl

/-! ## C9: the CLI refuses non-git directories -/

/-- C9: whenever the scan directory is not inside a git repository, the
CLI entry point returns the git error before consulting the loaded
configuration or walking, although the walk itself sets
`require_git(false)` on its traversal builder: through the CLI no walk
ever runs on a non-git directory. -/
theorem main_rejects_non_git (dir : String) (env : CliEnv)
    (h : env.dirIsGitRepo = false) :
    mainRun dir env = Except.error MainError.notGitRepository ∧
      walkBuilderSettings.require_git = false := by
  refine ⟨?_, rfl⟩
  simp [mainRun, is_git_repository, h]

/-- Witness for C9 at a concrete non-git environment. -/
theorem main_rejects_non_git_witness :
    mainRun "." ⟨false, none, ⟨none, none⟩, []⟩ =
        Except.error MainError.notGitRepository ∧
      walkBuilderSettings.require_git = false :=
  main_rejects_non_git "." ⟨false, none, ⟨none, none⟩, []⟩ rfl

/-! ## C10: the byte sanitizer -/

/-- The fold in `clean_content` appends exactly the kept bytes, whatever
the starting accumulator. -/
theorem cleanStep_foldl (cs : Bool) (l : List Nat) (cleaned : List Nat)
    (stats : CleanStats) (cur : Bool) :
    (l.foldl (cleanStep cs) (cleaned, stats, cur)).1 =
      cleaned ++ l.filter fun b => !(b == 0 || isStrippedControl b) := by
  induction l generalizing cleaned stats cur with
  | nil => simp
  | cons b bs ih =>
    rw [List.foldl_cons, List.filter_cons]
    cases h0 : b == 0 with
    | true => simp [cleanStep, h0, ih]
    | false =>
      cases hc : isStrippedControl b with
      | true => simp [cleanStep, h0, hc, ih]
      | false =>
        cases h10 : b == 10 with
        | true => simp [cleanStep, h0, hc, h10, ih]
        | false => simp [cleanStep, h0, hc, h10, ih]

/-- C10: the byte sequence of the string `clean_content` returns equals
the input with exactly the null byte and the control bytes in the ranges
1 to 8, 11 to 12 and 14 to 31 removed; tab (9), newline (10), carriage
return (13) and every other byte survive in their original order (the
input buffer, a pure value here as the source takes it by shared
reference, is untouched). -/
theorem clean_content_filters_bytes (buffer : List Nat) (collect_stats : Bool) :
    (clean_content buffer collect_stats).1 =
      buffer.filter fun b =>
        decide (¬(b = 0 ∨ (1 ≤ b ∧ b ≤ 8) ∨ (11 ≤ b ∧ b ≤ 12) ∨
          (14 ≤ b ∧ b ≤ 31))) := by
  have hfold : (clean_content buffer collect_stats).1 =
      buffer.filter fun b => !(b == 0 || isStrippedControl b) := by
    simp [clean_content, cleanStep_foldl]
  rw [hfold]
  apply List.filter_congr
  intro b hb
  rw [Bool.eq_iff_iff]
  simp [isStrippedControl]
